import Mathlib

/-!
Verification development for the Percona telemetry-agent core
(package-inventory scraper in `metrics` and the host/identity scraper in
`metrics/host.go`).  The Go code is embedded shallowly: pure string
manipulation from Go's `strings` package is re-defined over `List Char`,
external effects (command execution, the `goInfo` host-info collaborator,
the filesystem holding the identity file, `uuid.New()`, `time.Now()`) are
passed in as explicit parameters or as an explicit filesystem state.
-/

/-! ## Go `strings` primitives, modelled over `List Char` -/

/-- Character code of the single-quote character, used in the cutset of
`strings.Trim(line, " '")`. -/
def quoteChar : Char := Char.ofNat 39

/-- Cutset of `strings.Trim(line, " '")` in both parsers. -/
def spaceQuote : List Char := [' ', quoteChar]

/-- Model of `strings.ToLower` (ASCII case folding, which covers every
distribution-name prefix the code compares against). -/
def goToLower (s : String) : String :=
  String.mk (s.data.map Char.toLower)

/-- Model of `strings.HasPrefix s pre`. -/
def goHasPrefix (s pre : String) : Bool :=
  pre.data.isPrefixOf s.data

/-- Model of `strings.Trim s cutset`: drop leading and trailing characters
belonging to the cutset. -/
def goTrimCutset (s : String) (cutset : List Char) : String :=
  String.mk (((s.data.dropWhile (fun c => cutset.contains c)).reverse.dropWhile
      (fun c => cutset.contains c)).reverse)

/-- Whitespace predicate of Go's `strings.TrimSpace` restricted to the ASCII
space characters (`unicode.IsSpace` on ASCII input). -/
def isGoSpace (c : Char) : Bool :=
  c == ' ' || c == '\t' || c == '\n' || c == '\x0b' || c == '\x0c' || c == '\r'

/-- Model of `strings.TrimSpace`. -/
def goTrimSpace (s : String) : String :=
  String.mk (((s.data.dropWhile isGoSpace).reverse.dropWhile isGoSpace).reverse)

/-- Split a character list at every occurrence of `sep`, keeping empty
pieces, accumulating the current piece in reverse in `acc`.  This is the
semantics of Go's `strings.Split` for a one-character separator. -/
def splitOnCharAux (sep : Char) : List Char → List Char → List (List Char)
  | [], acc => [acc.reverse]
  | c :: cs, acc =>
    if c == sep then acc.reverse :: splitOnCharAux sep cs []
    else splitOnCharAux sep cs (c :: acc)

/-- Model of `strings.Split s sep` for a one-character separator `sep`. -/
def goSplitChar (s : String) (sep : Char) : List String :=
  (splitOnCharAux sep s.data []).map String.mk

/-- Index of the first occurrence of character `c`, as in
`strings.Index s c` for a one-character needle. -/
def indexOfChar (c : Char) : List Char → Option Nat
  | [] => none
  | x :: xs => if x == c then some 0 else (indexOfChar c xs).map (· + 1)

/-- Index of the last occurrence of character `c`, as in
`strings.LastIndex s c` for a one-character needle. -/
def lastIndexOfChar (c : Char) : List Char → Option Nat
  | [] => none
  | x :: xs =>
    match lastIndexOfChar c xs with
    | some i => some (i + 1)
    | none => if x == c then some 0 else none

/-- Index of the first occurrence of the pattern `pat` as a contiguous
sublist, as in `strings.Index s pat`. -/
def indexOfSubAux (pat : List Char) : List Char → Option Nat
  | [] => if pat.isEmpty then some 0 else none
  | c :: cs =>
    if pat.isPrefixOf (c :: cs) then some 0
    else (indexOfSubAux pat cs).map (· + 1)

/-- Model of `strings.Contains s sub`. -/
def goContains (s sub : String) : Bool :=
  (indexOfSubAux sub.data s.data).isSome

/-- Lines produced by a `bufio.Scanner` with the default `ScanLines` split
function reading from `strings.NewReader s`: split on newline, drop a final
empty token caused by a trailing newline, and strip one trailing carriage
return from each line. -/
def goScanLines (s : String) : List String :=
  if s.data.isEmpty then []
  else
    let parts := splitOnCharAux '\n' s.data []
    let parts := if s.data.getLast? == some '\n' then parts.dropLast else parts
    parts.map (fun l =>
      String.mk (if l.getLast? == some '\r' then l.dropLast else l))

/-! ## Data model of the package scraper -/

/-- Go struct `Package` from the `metrics` package. -/
structure Package where
  Name : String
  Version : String
deriving DecidableEq, Repr

/-- Outcome of a package probe on its error side: the sentinel
`errPackageNotFound` or a propagated runner/command error (carrying the
Go error's message). -/
inductive ParseError where
  | packageNotFound
  | cmdError (msg : String)
deriving DecidableEq, Repr

/-- Transformation applied by `parseDpkgOutput` to the version token of the
accepted line: drop everything from the last `.` on, drop an epoch up to
and including the first `:`, drop everything from `+dfsg` on. -/
def dpkgVersionOfToken (tok : String) : String :=
  let v := tok.data
  let v := match lastIndexOfChar '.' v with
    | some pos => v.take pos
    | none => v
  let v := match indexOfChar ':' v with
    | some pos => v.drop (pos + 1)
    | none => v
  let v := match indexOfSubAux "+dfsg".data v with
    | some pos => v.take pos
    | none => v
  String.mk v

/-- The line scan of `parseDpkgOutput`: trim each line, skip empty lines,
split on single spaces, require exactly three tokens, a reported name equal
to the queried name and status `"ii"`; the first such line determines the
version and stops the scan.  Returns `""` when no line qualifies. -/
def dpkgScan (packageName : String) : List String → String
  | [] => ""
  | l :: rest =>
    let line := goTrimCutset l spaceQuote
    if line.length = 0 then dpkgScan packageName rest
    else
      match goSplitChar line ' ' with
      | [t0, t1, t2] =>
        if t0 = packageName then
          if t1 = "ii" then dpkgVersionOfToken t2
          else dpkgScan packageName rest
        else dpkgScan packageName rest
      | _ => dpkgScan packageName rest

/-- A line qualifies for the dpkg scan when, after trimming spaces and
quote characters, it splits on single spaces into exactly three tokens
whose first token is the queried name and whose second token is `"ii"`. -/
def dpkgQualifies (packageName l : String) : Bool :=
  match goSplitChar (goTrimCutset l spaceQuote) ' ' with
  | [t0, t1, _] => decide (t0 = packageName) && decide (t1 = "ii")
  | _ => false

/-- Third space-token of a trimmed line (the dpkg version token). -/
def dpkgThirdToken (l : String) : String :=
  (goSplitChar (goTrimCutset l spaceQuote) ' ').getD 2 ""

/-- Model of `parseDpkgOutput` from the `metrics` package.  The runner error
is `none` for a nil Go error and `some msg` otherwise.  Reading from a
`strings.Reader` produces no scanner error, so the scanner-error branch of
the Go code is unreachable in this model. -/
def parseDpkgOutput (packageName dpkgOutput : String) (dpkgErr : Option String) :
    Except ParseError Package :=
  match dpkgErr with
  | some e =>
    if goContains dpkgOutput "no packages found matching" then
      .error .packageNotFound
    else
      .error (.cmdError e)
  | none =>
    let version := dpkgScan packageName (goScanLines dpkgOutput)
    if 0 < version.length then
      .ok { Name := packageName, Version := version }
    else
      .error .packageNotFound

/-- Transformation applied by `parseRpmOutput` to the matched line's version
and release tokens: drop the release's last `.`-segment, replace the
remaining dots by dashes, and join version and release with `-`. -/
def rpmVersionOfTokens (verTok relTok : String) : String :=
  let release := match lastIndexOfChar '.' relTok.data with
    | some pos => relTok.data.take pos
    | none => relTok.data
  let release := release.map (fun c => if c == '.' then '-' else c)
  verTok ++ "-" ++ String.mk release

/-- The line scan of `parseRpmOutput`: trim each line, skip empty lines,
split on single spaces, require exactly three tokens and a reported name
equal to the queried name; the first such line determines the version
(there is no status gate) and stops the scan. -/
def rpmScan (packageName : String) : List String → String
  | [] => ""
  | l :: rest =>
    let line := goTrimCutset l spaceQuote
    if line.length = 0 then rpmScan packageName rest
    else
      match goSplitChar line ' ' with
      | [t0, t1, t2] =>
        if t0 = packageName then rpmVersionOfTokens t1 t2
        else rpmScan packageName rest
      | _ => rpmScan packageName rest

/-- Model of `parseRpmOutput` from the `metrics` package. -/
def parseRpmOutput (packageName rpmOutput : String) (rpmErr : Option String) :
    Except ParseError Package :=
  match rpmErr with
  | some e =>
    if goContains rpmOutput "is not installed" then
      .error .packageNotFound
    else
      .error (.cmdError e)
  | none =>
    let version := rpmScan packageName (goScanLines rpmOutput)
    if 0 < version.length then
      .ok { Name := packageName, Version := version }
    else
      .error .packageNotFound

/-! ## Catalogues and family detection -/

/-- Go `getCommonPackages`: package names probed on every supported family. -/
def getCommonPackages : List String :=
  ["percona-server-server", "percona-server-server-pro",
   "percona-mysql-shell", "percona-mysql-router", "percona-mysql-router-pro",
   "proxysql", "proxysql2", "percona-orchestrator",
   "percona-xtradb-cluster-server", "percona-xtradb-cluster-mysql-router",
   "percona-server-mongodb-server", "percona-server-mongodb-server-pro",
   "percona-server-mongodb-mongos", "percona-server-mongodb-mongos-pro",
   "percona-backup-mongodb", "etcd", "percona-pgbouncer",
   "percona-xtrabackup-24", "percona-xtrabackup-80", "percona-xtrabackup-81",
   "percona-xtrabackup-82", "percona-xtrabackup-83", "percona-toolkit",
   "percona-haproxy", "pmm2-client", "percona-telemetry-agent"]

/-- Go `getDebianPackages`: Debian-specific package names. -/
def getDebianPackages : List String :=
  ["Percona-Server-server-5.7", "Percona-Xtradb-Cluster-server-5.7",
   "percona-postgresql-14", "percona-postgresql-15", "percona-postgresql-16"]

/-- Go `getRhelPackages`: RHEL-specific package names. -/
def getRhelPackages : List String :=
  ["Percona-Server-server-57", "Percona-XtraDB-Cluster-server-57",
   "percona-postgresql14-server", "percona-postgresql15-server",
   "percona-postgresql16-server"]

/-- Distribution-name prefixes recognised by `isDebianFamily`. -/
def debianPrefixes : List String := ["debian", "ubuntu"]

/-- Distribution-name prefixes recognised by `isRHELFamily`. -/
def rhelPrefixes : List String :=
  ["el", "centos", "oracle", "rocky", "red hat", "amazon", "alma"]

/-- Go `isDebianFamily`: case-insensitive prefix match of the OS identifier
against the Debian-family prefixes. -/
def isDebianFamily (name : String) : Bool :=
  let nameL := goToLower name
  debianPrefixes.any (fun p => goHasPrefix nameL p)

/-- Go `isRHELFamily`: case-insensitive prefix match of the OS identifier
against the RHEL-family prefixes. -/
def isRHELFamily (name : String) : Bool :=
  let nameL := goToLower name
  rhelPrefixes.any (fun p => goHasPrefix nameL p)

/-! ## External collaborators, as explicit parameters -/

/-- Result record of the external `goInfo.GetInfo()` host-info collaborator
(the fields `metrics/host.go` reads). -/
structure GoInfoData where
  OS : String
  Core : String
  Platform : String
deriving DecidableEq, Repr

/-- Go `getOSInfo`: the collaborator outcome is `none` on failure, in which
case the field degrades to `"unknown"`; on success the OS and Core strings
are joined by one space (`fmt.Sprintf "%s %s"`). -/
def getOSInfo (gi : Option GoInfoData) : String :=
  match gi with
  | none => "unknown"
  | some g => g.OS ++ " " ++ g.Core

/-- Go `getHardwareInfo`: the collaborator outcome is `none` on failure, in
which case the field degrades to `"unknown"`; on success it is the Platform
string. -/
def getHardwareInfo (gi : Option GoInfoData) : String :=
  match gi with
  | none => "unknown"
  | some g => g.Platform

/-- Go `getDeploymentInfo`: the source returns the constant `"PACKAGE"` and
consults no collaborator. -/
def getDeploymentInfo : String := "PACKAGE"

/-- A command runner models `exec.CommandContext(...).CombinedOutput()` for
one package-query tool: for each package name it yields the combined output
text and the process error (`none` for a nil Go error). -/
def CommandRunner : Type := String → String × Option String

/-- Go `queryDpkg`: run the dpkg-query command for the package and parse the
combined output. -/
def queryDpkg (runner : CommandRunner) (packageName : String) :
    Except ParseError Package :=
  let r := runner packageName
  parseDpkgOutput packageName r.1 r.2

/-- Go `queryRpm`: run the rpm command for the package and parse the
combined output. -/
def queryRpm (runner : CommandRunner) (packageName : String) :
    Except ParseError Package :=
  let r := runner packageName
  parseRpmOutput packageName r.1 r.2

/-- The probe loop of `ScrapeInstalledPackages`: every error outcome of a
probe (the not-found sentinel or any other error) skips the package and the
loop continues; a successful probe appends the package. -/
def scanPackages (probe : String → Except ParseError Package) :
    List String → List Package
  | [] => []
  | pName :: rest =>
    match probe pName with
    | .ok pkg => pkg :: scanPackages probe rest
    | .error _ => scanPackages probe rest

/-- Go `ScrapeInstalledPackages`: detect the family from the host OS
identifier, extend the common catalogue with the family-specific one, probe
each name in order, and return the accumulated packages.  The host-info
collaborator outcome and the two command runners are explicit parameters. -/
def ScrapeInstalledPackages (gi : Option GoInfoData)
    (dpkgRunner rpmRunner : CommandRunner) : List Package :=
  let pkgList := getCommonPackages
  let localOs := getOSInfo gi
  if isDebianFamily localOs then
    scanPackages (queryDpkg dpkgRunner) (pkgList ++ getDebianPackages)
  else if isRHELFamily localOs then
    scanPackages (queryRpm rpmRunner) (pkgList ++ getRhelPackages)
  else
    []

/-! ## Identity file manager and host metrics scraper -/

/-- Well-known path of the identity file, Go constant `telemetryFile`. -/
def telemetryFile : String := "/usr/local/percona/telemetry_uuid"

/-- Key name inside the identity file, Go constant `instanceIDKey`. -/
def instanceIDKey : String := "instanceId"

/-- State of the filesystem at the identity-file path: the containing
directory may be absent, the file may be absent with the directory present,
or the file may be present with some (possibly empty) content. -/
inductive FsState where
  | dirAbsent
  | fileAbsent
  | filePresent (content : String)
deriving DecidableEq, Repr

/-- Lines produced by `bufio.Scanner` with `customSplitFunc` from
`metrics/host.go`: split on newline, emit the final chunk at EOF only when
it is part of the data (so a trailing newline yields no extra empty line),
and perform no carriage-return stripping. -/
def customSplitLines (s : String) : List String :=
  if s.data.isEmpty then []
  else
    let parts := splitOnCharAux '\n' s.data []
    let parts := if s.data.getLast? == some '\n' then parts.dropLast else parts
    parts.map String.mk

/-- The key scan of `getInstanceID` over the lines of a non-empty identity
file: the first line splitting on `:` into exactly two parts whose first
part is the identity key determines the result (its second part, space
trimmed) and stops the scan; with no such line the result is `""`. -/
def scanForKey : List String → String
  | [] => ""
  | l :: rest =>
    match goSplitChar l ':' with
    | [p0, p1] =>
      if p0 = instanceIDKey then goTrimSpace p1 else scanForKey rest
    | _ => scanForKey rest

/-- A line matches the identity key when it splits on `:` into exactly two
parts whose first part is the identity key. -/
def lineMatchesKey (l : String) : Bool :=
  match goSplitChar l ':' with
  | [p0, _] => decide (p0 = instanceIDKey)
  | _ => false

/-- Go `createTelemetryFile`: write `instanceId: <uuid>` to the file and
return the freshly generated UUID; a write failure (injected through
`writeErr`) is propagated as a hard error, leaving the modelled file state
unchanged. -/
def createTelemetryFile (freshUuid : String) (writeErr : Option String)
    (fs : FsState) : FsState × Except String String :=
  match writeErr with
  | some e => (fs, .error e)
  | none =>
    (.filePresent (instanceIDKey ++ ": " ++ freshUuid), .ok freshUuid)

/-- Go `getInstanceID` over the modelled filesystem state: an absent
directory is created and the identity file written; an absent or empty file
is (re)written; a present non-empty file is scanned for the identity key,
returning the found value, or `""` with a nil error when no line matches.
The fresh UUID of `uuid.New()` is an explicit parameter. -/
def getInstanceID (fs : FsState) (freshUuid : String)
    (writeErr : Option String) : FsState × Except String String :=
  match fs with
  | .dirAbsent => createTelemetryFile freshUuid writeErr .dirAbsent
  | .fileAbsent => createTelemetryFile freshUuid writeErr .fileAbsent
  | .filePresent content =>
    if content.length = 0 then
      createTelemetryFile freshUuid writeErr (.filePresent content)
    else
      (.filePresent content, .ok (scanForKey (customSplitLines content)))

/-- Modelled from the spec: the `File` record type (`HostFactRecord`) is
declared outside the sources at hand; its shape is taken from the spec's
`{timestamp, source file-path, metrics mapping}` and from the fields
`ScrapeHostMetrics` assigns.  The Go `map[string]string` is modelled as an
association list queried by key. -/
structure File where
  Timestamp : Nat
  Filename : String
  Metrics : List (String × String)
deriving DecidableEq, Repr

/-- Go `ScrapeHostMetrics`: resolve the instance identity (propagating its
error wrapped as a hard failure), then assemble the record with the current
timestamp, the identity-file path, and the instanceId/OS/deployment/
hardware_arch metric values.  `now`, the fresh UUID, the injected write
error and the two independent host-info collaborator outcomes are explicit
parameters. -/
def ScrapeHostMetrics (fs : FsState) (freshUuid : String)
    (writeErr : Option String) (now : Nat) (giOs giHw : Option GoInfoData) :
    FsState × Except String File :=
  let r := getInstanceID fs freshUuid writeErr
  match r.2 with
  | .error e =>
    (r.1, .error ("can't get Percona telemetry instanceID: " ++ e))
  | .ok instanceID =>
    (r.1, .ok
      { Timestamp := now
        Filename := telemetryFile
        Metrics := [(instanceIDKey, instanceID), ("OS", getOSInfo giOs),
                    ("deployment", getDeploymentInfo),
                    ("hardware_arch", getHardwareInfo giHw)] })

deriving instance DecidableEq for Except

/-! ## Helper lemmas -/

theorem string_length_eq_zero {s : String} (h : s.length = 0) : s = "" := by
  cases s with
  | mk d =>
    cases d with
    | nil => rfl
    | cons c cs => simp [String.length] at h

theorem scanPackages_eq_filterMap (probe : String → Except ParseError Package)
    (l : List String) :
    scanPackages probe l = l.filterMap (fun n => (probe n).toOption) := by
  induction l with
  | nil => rfl
  | cons p rest ih =>
    simp only [scanPackages, List.filterMap_cons]
    cases probe p <;> simp [ih, Except.toOption]

/-! ## C1: rpm parser on the literal example -/

/-- C1 counterexample: on queried name `"pkgA"`, raw output
`"pkgA 8.1.0 1.1.el8"` and a nil runner error, `parseRpmOutput` returns
version `"8.1.0-1-1"`, not the claimed `"8.1.0-1-1-el8"`. -/
theorem c1_rpm_literal_counterexample :
    parseRpmOutput "pkgA" "pkgA 8.1.0 1.1.el8" none ≠
      Except.ok { Name := "pkgA", Version := "8.1.0-1-1-el8" } := by decide

/-- C1 (amended): on queried name `"pkgA"`, raw output
`"pkgA 8.1.0 1.1.el8"` and a nil runner error, the returned Package has
version `"8.1.0-1-1"`: the release token `1.1.el8` has its final
`.`-delimited segment (`el8`) stripped, the remaining `.` replaced with
`-`, and the result joined to the version token with `-`. -/
theorem c1_rpm_literal :
    parseRpmOutput "pkgA" "pkgA 8.1.0 1.1.el8" none =
        Except.ok { Name := "pkgA", Version := "8.1.0-1-1" } ∧
      rpmVersionOfTokens "8.1.0" "1.1.el8" = "8.1.0-1-1" :=
  ⟨rfl, rfl⟩

/-! ## C3: the package scraper is total and best-effort -/

/-- C3: `ScrapeInstalledPackages` never returns an error: for every
host-info outcome and every per-package command outcome it returns the
(possibly empty) list of successfully parsed packages, in catalogue order;
every failing probe (not-found sentinel or any other error) is skipped
without affecting the others. -/
theorem c3_scrape_total_best_effort :
    ∀ (gi : Option GoInfoData) (dpkgRunner rpmRunner : CommandRunner),
      ScrapeInstalledPackages gi dpkgRunner rpmRunner =
        if isDebianFamily (getOSInfo gi) then
          (getCommonPackages ++ getDebianPackages).filterMap
            (fun n => (queryDpkg dpkgRunner n).toOption)
        else if isRHELFamily (getOSInfo gi) then
          (getCommonPackages ++ getRhelPackages).filterMap
            (fun n => (queryRpm rpmRunner n).toOption)
        else [] := by
  intro gi dpkgRunner rpmRunner
  unfold ScrapeInstalledPackages
  by_cases h1 : isDebianFamily (getOSInfo gi) <;>
    by_cases h2 : isRHELFamily (getOSInfo gi) <;>
      simp [h1, h2, scanPackages_eq_filterMap]

/-! ## C6: family detection -/

/-- C6: any string whose lower-casing starts with a Debian-family prefix is
classified Debian-family; any string whose lower-casing starts with a
RHEL-family prefix is classified RHEL-family; a string matching no prefix
is classified neither, and then `ScrapeInstalledPackages` returns the empty
list without probing any package (its result does not depend on the
command runners). -/
theorem c6_family_detection :
    (∀ (s p : String), p ∈ debianPrefixes → goHasPrefix (goToLower s) p = true →
      isDebianFamily s = true) ∧
    (∀ (s p : String), p ∈ rhelPrefixes → goHasPrefix (goToLower s) p = true →
      isRHELFamily s = true) ∧
    (∀ s : String, (∀ p ∈ debianPrefixes, goHasPrefix (goToLower s) p = false) →
      (∀ p ∈ rhelPrefixes, goHasPrefix (goToLower s) p = false) →
      isDebianFamily s = false ∧ isRHELFamily s = false) ∧
    (∀ (gi : Option GoInfoData) (dpkgRunner rpmRunner : CommandRunner),
      isDebianFamily (getOSInfo gi) = false → isRHELFamily (getOSInfo gi) = false →
      ScrapeInstalledPackages gi dpkgRunner rpmRunner = []) := by
  refine ⟨?_, ?_, ?_, ?_⟩
  · intro s p hp h
    simp only [isDebianFamily, List.any_eq_true]
    exact ⟨p, hp, h⟩
  · intro s p hp h
    simp only [isRHELFamily, List.any_eq_true]
    exact ⟨p, hp, h⟩
  · intro s hd hr
    constructor
    · simp only [isDebianFamily, List.any_eq_false]
      intro p hp
      simp [hd p hp]
    · simp only [isRHELFamily, List.any_eq_false]
      intro p hp
      simp [hr p hp]
  · intro gi dpkgRunner rpmRunner hd hr
    unfold ScrapeInstalledPackages
    simp [hd, hr]

/-- Witness for C6 at concrete inputs: a mixed-case Debian identifier, a
mixed-case RHEL identifier, and an unsupported identifier on which the
scraper probes nothing. -/
theorem c6_family_detection_witness :
    isDebianFamily "DeBiAn GNU/Linux 12" = true ∧
    isRHELFamily "ROCKY Linux 9.3" = true ∧
    (isDebianFamily "Windows Server 2022" = false ∧
      isRHELFamily "Windows Server 2022" = false) ∧
    ScrapeInstalledPackages (some { OS := "Windows", Core := "NT", Platform := "x86_64" })
      (fun _ => ("", none)) (fun _ => ("", none)) = [] :=
  ⟨c6_family_detection.1 "DeBiAn GNU/Linux 12" "debian" (by decide) (by decide),
   c6_family_detection.2.1 "ROCKY Linux 9.3" "rocky" (by decide) (by decide),
   c6_family_detection.2.2.1 "Windows Server 2022" (by decide) (by decide),
   c6_family_detection.2.2.2
     (some { OS := "Windows", Core := "NT", Platform := "x86_64" })
     (fun _ => ("", none)) (fun _ => ("", none)) (by decide) (by decide)⟩

/-! ## C8: identity-file invariant -/

/-- C8: `getInstanceID` generates and persists a fresh identifier exactly
when the containing directory is absent, the file is absent, or the file is
present but empty (each such successful call leaves the file holding
`instanceId: <uuid>` and returns the fresh identifier); whenever the file
is present and non-empty, no call changes the file state. -/
theorem c8_identity_file_invariant :
    (∀ u : String, getInstanceID .dirAbsent u none =
      (.filePresent (instanceIDKey ++ ": " ++ u), .ok u)) ∧
    (∀ u : String, getInstanceID .fileAbsent u none =
      (.filePresent (instanceIDKey ++ ": " ++ u), .ok u)) ∧
    (∀ u : String, getInstanceID (.filePresent "") u none =
      (.filePresent (instanceIDKey ++ ": " ++ u), .ok u)) ∧
    (∀ (content u : String) (w : Option String), content ≠ "" →
      (getInstanceID (.filePresent content) u w).1 = .filePresent content) := by
  refine ⟨fun u => rfl, fun u => rfl, fun u => rfl, ?_⟩
  intro content u w hne
  have hlen : ¬content.length = 0 := fun h => hne (string_length_eq_zero h)
  simp [getInstanceID, hlen]

/-- Witness for C8: a non-empty file is left untouched, and a call from an
absent directory persists the fresh identifier. -/
theorem c8_identity_file_invariant_witness :
    (getInstanceID (.filePresent "instanceId: abc") "fresh-uuid" none).1 =
        FsState.filePresent "instanceId: abc" ∧
      getInstanceID .dirAbsent "u1" none =
        (FsState.filePresent "instanceId: u1", .ok "u1") :=
  ⟨c8_identity_file_invariant.2.2.2 "instanceId: abc" "fresh-uuid" none (by decide),
   c8_identity_file_invariant.1 "u1"⟩

/-! ## C4: non-empty file with unrelated content -/

theorem scanForKey_of_no_match (lines : List String)
    (h : ∀ l ∈ lines, lineMatchesKey l = false) : scanForKey lines = "" := by
  induction lines with
  | nil => rfl
  | cons l rest ih =>
    have hl := h l (List.mem_cons_self l rest)
    simp only [scanForKey]
    split
    · rename_i p0 p1 hsp
      have hp0 : ¬p0 = instanceIDKey := by
        have := hl
        simp only [lineMatchesKey, hsp, decide_eq_false_iff_not] at this
        exact this
      simp [hp0, ih (fun x hx => h x (List.mem_cons_of_mem _ hx))]
    · exact ih (fun x hx => h x (List.mem_cons_of_mem _ hx))

/-- C4: for every non-empty identity-file content in which no line splits
on `:` into exactly two parts with first part `instanceId`, `getInstanceID`
returns the empty string with a nil error and leaves the file content
unchanged. -/
theorem c4_unrelated_content_preserved (content u : String) (w : Option String)
    (hne : content ≠ "")
    (hnm : ∀ l ∈ customSplitLines content, lineMatchesKey l = false) :
    getInstanceID (.filePresent content) u w = (.filePresent content, .ok "") := by
  have hlen : ¬content.length = 0 := fun h => hne (string_length_eq_zero h)
  simp [getInstanceID, hlen, scanForKey_of_no_match _ hnm]

/-- Witness for C4: a file holding only an unrelated key. -/
theorem c4_unrelated_content_preserved_witness :
    getInstanceID (.filePresent "os: ubuntu") "fresh" none =
      (FsState.filePresent "os: ubuntu", .ok "") :=
  c4_unrelated_content_preserved "os: ubuntu" "fresh" none (by decide) (by decide)

/-! ## C5: identity round-trip -/

theorem mem_of_getLast?_eq_some {α : Type} {l : List α} {x : α}
    (h : l.getLast? = some x) : x ∈ l := by
  induction l with
  | nil => simp at h
  | cons a t ih =>
    cases t with
    | nil =>
      rw [List.getLast?_singleton] at h
      injection h with h
      simp [h]
    | cons b t2 =>
      rw [List.getLast?_cons_cons] at h
      exact List.mem_cons_of_mem a (ih h)

theorem splitAux_no_sep (sep : Char) (l acc : List Char)
    (h : ∀ c ∈ l, ¬c = sep) :
    splitOnCharAux sep l acc = [acc.reverse ++ l] := by
  induction l generalizing acc with
  | nil => simp [splitOnCharAux]
  | cons c cs ih =>
    have hc : (c == sep) = false := by
      simp [h c (List.mem_cons_self c cs)]
    simp [splitOnCharAux, hc, ih _ (fun x hx => h x (List.mem_cons_of_mem _ hx))]

theorem splitAux_skip (sep : Char) (pre l acc : List Char)
    (h : ∀ c ∈ pre, ¬c = sep) :
    splitOnCharAux sep (pre ++ l) acc = splitOnCharAux sep l (pre.reverse ++ acc) := by
  induction pre generalizing acc with
  | nil => simp
  | cons c cs ih =>
    have hc : (c == sep) = false := by
      simp [h c (List.mem_cons_self c cs)]
    simp only [List.cons_append, splitOnCharAux, hc, Bool.false_eq_true, if_false,
      List.append_eq]
    rw [ih _ (fun x hx => h x (List.mem_cons_of_mem _ hx))]
    simp

theorem customSplitLines_single (s : String) (hne : s.data ≠ [])
    (h : ∀ c ∈ s.data, ¬c = '\n') : customSplitLines s = [s] := by
  have hsplit := splitAux_no_sep '\n' s.data [] h
  have hlast : (s.data.getLast? == some '\n') = false := by
    cases hl : s.data.getLast? with
    | none => rfl
    | some x =>
      have hx : x ∈ s.data := mem_of_getLast?_eq_some hl
      simp [h x hx]
  simp [customSplitLines, hne, hsplit, hlast]

/-- C5: starting from an absent identity file and absent containing
directory, `getInstanceID` creates the file with content
`instanceId: <uuid>` and returns the generated identifier, and a second
call against the state so created returns exactly the same string, for
every identifier without newline, colon or surrounding whitespace (as a
version-4 UUID string is). -/
theorem c5_identity_roundtrip (u u2 : String)
    (hchar : ∀ c ∈ u.data, ¬c = '\n' ∧ ¬c = ':')
    (htrim : goTrimSpace u = u) :
    getInstanceID .dirAbsent u none =
      (.filePresent (instanceIDKey ++ ": " ++ u), .ok u) ∧
    getInstanceID (.filePresent (instanceIDKey ++ ": " ++ u)) u2 none =
      (.filePresent (instanceIDKey ++ ": " ++ u), .ok u) := by
  refine ⟨rfl, ?_⟩
  obtain ⟨d⟩ := u
  have hdata : (instanceIDKey ++ ": " ++ String.mk d).data =
      "instanceId".data ++ (':' :: ' ' :: d) := rfl
  have hall : ∀ c ∈ (instanceIDKey ++ ": " ++ String.mk d).data, ¬c = '\n' := by
    rw [hdata]
    intro c hc
    rcases List.mem_append.1 hc with hpre | hrest
    · exact (show ∀ x ∈ "instanceId".data, ¬x = '\n' by decide) c hpre
    · cases hrest with
      | head => decide
      | tail _ hrest2 =>
        cases hrest2 with
        | head => decide
        | tail _ hrest3 => exact (hchar c hrest3).1
  have hnonempty : (instanceIDKey ++ ": " ++ String.mk d).data ≠ [] := by
    rw [hdata]
    simp
  have hlines := customSplitLines_single _ hnonempty hall
  have hsplitcolon : goSplitChar (instanceIDKey ++ ": " ++ String.mk d) ':' =
      ["instanceId", String.mk (' ' :: d)] := by
    unfold goSplitChar
    rw [hdata, splitAux_skip ':' ("instanceId".data) (':' :: ' ' :: d) []
      (by decide)]
    rw [show splitOnCharAux ':' (':' :: ' ' :: d) ("instanceId".data.reverse ++ []) =
        ("instanceId".data.reverse ++ []).reverse ::
          splitOnCharAux ':' (' ' :: d) [] from by simp [splitOnCharAux]]
    rw [splitAux_no_sep ':' (' ' :: d) []
      (by
        intro c hc
        cases hc with
        | head => decide
        | tail _ hc2 => exact (hchar c hc2).2)]
    simp
  have htrimmed : goTrimSpace (String.mk (' ' :: d)) = String.mk d := by
    have hstep : (' ' :: d).dropWhile isGoSpace = d.dropWhile isGoSpace := by
      simp [List.dropWhile, isGoSpace]
    simp only [goTrimSpace, hstep]
    exact htrim
  have hscan : scanForKey (customSplitLines (instanceIDKey ++ ": " ++ String.mk d)) =
      String.mk d := by
    rw [hlines]
    simp only [scanForKey, hsplitcolon]
    simp [instanceIDKey, htrimmed]
  have hlen : ¬(instanceIDKey ++ ": " ++ String.mk d).length = 0 := by
    intro h
    exact hnonempty (by simpa using congrArg String.data (string_length_eq_zero h))
  simp only [getInstanceID]
  rw [if_neg hlen, hscan]

/-- Witness for C5 at a concrete version-4 UUID string. -/
theorem c5_identity_roundtrip_witness :
    getInstanceID .dirAbsent "1bed5f0d-cc3a-11ee-bd8a-c84bd64e0277" none =
      (.filePresent (instanceIDKey ++ ": " ++ "1bed5f0d-cc3a-11ee-bd8a-c84bd64e0277"),
       .ok "1bed5f0d-cc3a-11ee-bd8a-c84bd64e0277") ∧
    getInstanceID
        (.filePresent (instanceIDKey ++ ": " ++ "1bed5f0d-cc3a-11ee-bd8a-c84bd64e0277"))
        "ffffffff-0000-0000-0000-000000000000" none =
      (.filePresent (instanceIDKey ++ ": " ++ "1bed5f0d-cc3a-11ee-bd8a-c84bd64e0277"),
       .ok "1bed5f0d-cc3a-11ee-bd8a-c84bd64e0277") :=
  c5_identity_roundtrip "1bed5f0d-cc3a-11ee-bd8a-c84bd64e0277"
    "ffffffff-0000-0000-0000-000000000000" (by decide) (by decide)

/-! ## C7: host metric fields and the deployment constant -/

/-- C7 counterexample: with both host-info collaborator queries failing, the
assembled record's deployment value is the constant `"PACKAGE"`, not
`"unknown"`: the deployment field is not obtained from the collaborator and
never degrades. -/
theorem c7_deployment_counterexample :
    (ScrapeHostMetrics (.filePresent "instanceId: abc") "u" none 0 none none).2 =
        Except.ok { Timestamp := 0, Filename := telemetryFile,
                    Metrics := [("instanceId", "abc"), ("OS", "unknown"),
                                ("deployment", "PACKAGE"),
                                ("hardware_arch", "unknown")] } ∧
      ("PACKAGE" : String) ≠ "unknown" :=
  ⟨rfl, by decide⟩

/-- C7 (amended): the OS and hardware_arch metric values are obtained from
the external host-info collaborator and each individually defaults to
`"unknown"` when its own query fails, without failing the overall scrape;
the deployment value is always the constant `"PACKAGE"`. -/
theorem c7_host_info_fields (fs : FsState) (u : String) (w : Option String)
    (now : Nat) (giOs giHw : Option GoInfoData) (instanceID : String)
    (h : (getInstanceID fs u w).2 = .ok instanceID) :
    (ScrapeHostMetrics fs u w now giOs giHw).2 =
      Except.ok { Timestamp := now, Filename := telemetryFile,
                  Metrics := [(instanceIDKey, instanceID), ("OS", getOSInfo giOs),
                              ("deployment", "PACKAGE"),
                              ("hardware_arch", getHardwareInfo giHw)] } ∧
    getOSInfo none = "unknown" ∧
    getHardwareInfo none = "unknown" ∧
    (∀ g : GoInfoData, getOSInfo (some g) = g.OS ++ " " ++ g.Core) ∧
    (∀ g : GoInfoData, getHardwareInfo (some g) = g.Platform) := by
  refine ⟨?_, rfl, rfl, fun g => rfl, fun g => rfl⟩
  simp [ScrapeHostMetrics, h, getDeploymentInfo]

/-- Witness for C7 (amended) at a concrete file state with both
collaborator queries failing. -/
theorem c7_host_info_fields_witness :
    (ScrapeHostMetrics (.filePresent "instanceId: abc") "u" none 5 none none).2 =
      Except.ok { Timestamp := 5, Filename := telemetryFile,
                  Metrics := [(instanceIDKey, "abc"), ("OS", getOSInfo none),
                              ("deployment", "PACKAGE"),
                              ("hardware_arch", getHardwareInfo none)] } :=
  (c7_host_info_fields (.filePresent "instanceId: abc") "u" none 5 none none
    "abc" rfl).1

/-! ## C9: implicit parser postconditions -/

/-- C9: whenever either parser returns a Package, its Name is the queried
name and its Version is non-empty; when the version string computed by the
line scan is empty, the parser returns the not-found sentinel instead of a
Package. -/
theorem c9_parser_postconditions (packageName out : String) (err : Option String)
    (pkg : Package) :
    (parseDpkgOutput packageName out err = .ok pkg →
      pkg.Name = packageName ∧ 0 < pkg.Version.length) ∧
    (parseRpmOutput packageName out err = .ok pkg →
      pkg.Name = packageName ∧ 0 < pkg.Version.length) ∧
    (dpkgScan packageName (goScanLines out) = "" →
      parseDpkgOutput packageName out none = .error .packageNotFound) ∧
    (rpmScan packageName (goScanLines out) = "" →
      parseRpmOutput packageName out none = .error .packageNotFound) := by
  refine ⟨?_, ?_, ?_, ?_⟩
  · intro h
    cases err with
    | some e =>
      simp only [parseDpkgOutput] at h
      split at h <;> simp at h
    | none =>
      simp only [parseDpkgOutput] at h
      split at h
      · rename_i hlt
        injection h with h2
        subst h2
        exact ⟨rfl, hlt⟩
      · simp at h
  · intro h
    cases err with
    | some e =>
      simp only [parseRpmOutput] at h
      split at h <;> simp at h
    | none =>
      simp only [parseRpmOutput] at h
      split at h
      · rename_i hlt
        injection h with h2
        subst h2
        exact ⟨rfl, hlt⟩
      · simp at h
  · intro h
    simp [parseDpkgOutput, h]
  · intro h
    simp [parseRpmOutput, h]

/-- Witness for C9 at the dpkg literal example. -/
theorem c9_parser_postconditions_witness :
    ({ Name := "pkgA", Version := "8.1.0-1-1" } : Package).Name = "pkgA" ∧
      0 < ({ Name := "pkgA", Version := "8.1.0-1-1" } : Package).Version.length :=
  (c9_parser_postconditions "pkgA" "pkgA ii 2:8.1.0-1-1.jammy" none
    { Name := "pkgA", Version := "8.1.0-1-1" }).1 rfl

/-! ## C10: nil identity error always yields a record -/

/-- C10: whenever `getInstanceID` returns a nil error, `ScrapeHostMetrics`
returns a record with a nil error, and the record's metrics map the key
`instanceId` to the returned identifier (including the degraded empty
string) together with the OS, deployment and hardware_arch keys. -/
theorem c10_nil_error_record (fs : FsState) (u : String) (w : Option String)
    (now : Nat) (giOs giHw : Option GoInfoData) (instanceID : String)
    (h : (getInstanceID fs u w).2 = .ok instanceID) :
    ∃ f : File, (ScrapeHostMetrics fs u w now giOs giHw).2 = Except.ok f ∧
      f.Metrics.lookup "instanceId" = some instanceID ∧
      f.Metrics.lookup "OS" = some (getOSInfo giOs) ∧
      f.Metrics.lookup "deployment" = some getDeploymentInfo ∧
      f.Metrics.lookup "hardware_arch" = some (getHardwareInfo giHw) := by
  refine ⟨{ Timestamp := now, Filename := telemetryFile,
            Metrics := [(instanceIDKey, instanceID), ("OS", getOSInfo giOs),
                        ("deployment", getDeploymentInfo),
                        ("hardware_arch", getHardwareInfo giHw)] },
    ?_, rfl, rfl, rfl, rfl⟩
  simp [ScrapeHostMetrics, h]

/-- Witness for C10 at a file whose content has no identity key, so the
identifier is the degraded empty string. -/
theorem c10_nil_error_record_witness :
    ∃ f : File, (ScrapeHostMetrics (.filePresent "foo: bar") "u" none 0 none none).2 =
        Except.ok f ∧
      f.Metrics.lookup "instanceId" = some "" ∧
      f.Metrics.lookup "OS" = some (getOSInfo none) ∧
      f.Metrics.lookup "deployment" = some getDeploymentInfo ∧
      f.Metrics.lookup "hardware_arch" = some (getHardwareInfo none) :=
  c10_nil_error_record (.filePresent "foo: bar") "u" none 0 none none "" rfl

/-! ## C2: dpkg parser characterization -/

theorem dpkgScan_cons (packageName l : String) (rest : List String) :
    dpkgScan packageName (l :: rest) =
      if dpkgQualifies packageName l then dpkgVersionOfToken (dpkgThirdToken l)
      else dpkgScan packageName rest := by
  by_cases h0 : (goTrimCutset l spaceQuote).length = 0
  · have he : goTrimCutset l spaceQuote = "" := string_length_eq_zero h0
    have hsp : goSplitChar (goTrimCutset l spaceQuote) ' ' = [""] := by
      rw [he]
      decide
    have hq : dpkgQualifies packageName l = false := by
      unfold dpkgQualifies
      rw [hsp]
    simp [dpkgScan, h0, hq]
  · rcases hsp : goSplitChar (goTrimCutset l spaceQuote) ' ' with _ | ⟨t0, ts⟩
    · simp [dpkgScan, h0, dpkgQualifies, hsp]
    · rcases ts with _ | ⟨t1, ts⟩
      · simp [dpkgScan, h0, dpkgQualifies, hsp]
      · rcases ts with _ | ⟨t2, ts⟩
        · simp [dpkgScan, h0, dpkgQualifies, hsp]
        · rcases ts with _ | ⟨t3, ts⟩
          · by_cases ht0 : t0 = packageName <;> by_cases ht1 : t1 = "ii" <;>
              simp [dpkgScan, h0, dpkgQualifies, dpkgThirdToken, hsp, ht0, ht1]
          · simp [dpkgScan, h0, dpkgQualifies, hsp]

theorem dpkgScan_eq_find (packageName : String) (lines : List String) :
    dpkgScan packageName lines =
      ((lines.find? (dpkgQualifies packageName)).map
        (fun l => dpkgVersionOfToken (dpkgThirdToken l))).getD "" := by
  induction lines with
  | nil => rfl
  | cons l rest ih =>
    rw [dpkgScan_cons]
    by_cases hq : dpkgQualifies packageName l
    · simp [List.find?, hq]
    · simp only [Bool.not_eq_true] at hq
      simp [List.find?, hq, ih]

/-- C2: for a nil runner error, the dpkg scan is determined by the first
qualifying line (a line that, trimmed of spaces and quote characters,
splits on single spaces into exactly three tokens with the queried name
first and status `"ii"` second) and scanning stops there; the version token
is transformed by `dpkgVersionOfToken` (strip after the last `.`, strip the
epoch through the first `:`, strip from `+dfsg`).  On the literal examples:
`"pkgA ii 2:8.1.0-1-1.jammy"` yields version `"8.1.0-1-1"`, a `+dfsg`
version is truncated at the marker, and a sole line with a status other
than `"ii"` yields the not-found outcome. -/
theorem c2_dpkg_parser_characterization :
    (∀ (packageName : String) (lines : List String),
      dpkgScan packageName lines =
        ((lines.find? (dpkgQualifies packageName)).map
          (fun l => dpkgVersionOfToken (dpkgThirdToken l))).getD "") ∧
    parseDpkgOutput "pkgA" "pkgA ii 2:8.1.0-1-1.jammy" none =
      Except.ok { Name := "pkgA", Version := "8.1.0-1-1" } ∧
    parseDpkgOutput "pkgA" "pkgA ii 1.2+dfsg-3.jammy" none =
      Except.ok { Name := "pkgA", Version := "1.2" } ∧
    parseDpkgOutput "pkgA" "pkgA rc 2:8.1.0-1-1.jammy" none =
      Except.error ParseError.packageNotFound :=
  ⟨dpkgScan_eq_find, rfl, rfl, rfl⟩
